import Mathlib

/-!
# Verification of the chia wallet light-client sync core

Shallow embedding of `chia/util/limited_semaphore.py` and
`chia/wallet/wallet_node.py` (the peak-reconciliation engine, the
coin-state validator, the race cache, the weight-proof gate and the
subscription helpers), together with proofs settling the claims of the
specification against this embedding.

Conventions:
* `bytes32` hashes, peer ids and Merkle roots are modelled as `Nat`.
* Python `dict`s keyed by hashes are modelled as association lists
  (`List (key × value)`), insertion appending a fresh key at the end.
* Python `set`s are modelled as duplicate-free lists (add-if-absent).
* Fallible code returns `Option`/`Except`; an uncaught Python exception
  (assert failure, KeyError, no peer response) is the `none`/`error` case.
* External collaborators (peer responses, the external weight-proof
  validator, the wallet coin store, merkle-proof helpers that live in
  other modules of the repository) are passed in as explicit oracle
  arguments; the control flow around them is translated from the source.
-/

/-! ## Data model -/

/-- `chia.types.blockchain_format.coin.Coin`, restricted to the fields the
sync core reads: `puzzle_hash` and the coin id (`coin.name()`). -/
structure Coin where
  puzzle_hash : Nat
  coin_id : Nat
deriving DecidableEq, Repr

/-- `chia.protocols.wallet_protocol.CoinState`:
`(coin, spent_height, created_height)` with optional heights. -/
structure CoinState where
  coin : Coin
  created_height : Option Nat
  spent_height : Option Nat
deriving DecidableEq, Repr

/-- The `foliage_transaction_block` part of a header that the validator
reads: Merkle roots for additions and removals. -/
structure FoliageTxBlock where
  additions_root : Nat
  removals_root : Nat
deriving DecidableEq, Repr

/-- `chia.types.header_block.HeaderBlock`, restricted to the fields the
sync core reads. -/
structure HeaderBlock where
  height : Nat
  weight : Nat
  header_hash : Nat
  prev_header_hash : Nat
  foliage_transaction_block : Option FoliageTxBlock
deriving DecidableEq, Repr

/-- A wallet-DB coin record (`WalletCoinRecord`) as read by
`validate_received_state_from_peer`: `spent_block_height == 0` encodes
"unspent". -/
structure CoinRecord where
  confirmed_block_height : Nat
  spent_block_height : Nat
deriving DecidableEq, Repr

/-! ## LimitedSemaphore (`chia/util/limited_semaphore.py`)

State of a `LimitedSemaphore`: the `_available_count` counter and the
key set of the `_active_tasks` dict (tasks are modelled by `Nat` ids;
`TaskInfo` timing data is irrelevant to the claims). -/

structure LimitedSemaphore where
  available_count : Int
  active_tasks : Finset Nat
deriving DecidableEq

/-- `LimitedSemaphore.create(active_limit, waiting_limit)`:
`_available_count = active_limit + waiting_limit`, no active tasks. -/
def LimitedSemaphore.create (active_limit waiting_limit : Nat) : LimitedSemaphore :=
  { available_count := (active_limit : Int) + (waiting_limit : Int)
    active_tasks := ∅ }

/-- The entry check of `LimitedSemaphore.acquire` (lines 115-118): raise
`LimitedSemaphoreFullError` when `_available_count < 1`, otherwise
decrement `_available_count`. (`Unit` stands for the raised error.) -/
def LimitedSemaphore.acquire_check (s : LimitedSemaphore) :
    Except Unit LimitedSemaphore :=
  if s.available_count < 1 then .error ()
  else .ok { s with available_count := s.available_count - 1 }

/-- The guarded-section entry of `acquire` (lines 120-123): after the
inner `asyncio.Semaphore` grants a slot, the current task is recorded in
`_active_tasks`. -/
def LimitedSemaphore.acquire_enter (s : LimitedSemaphore) (t : Nat) : LimitedSemaphore :=
  { s with active_tasks := insert t s.active_tasks }

/-- The `finally` block of `acquire` (lines 125-127), which runs on every
exit path of the guarded section, including exceptions: increment
`_available_count` and pop the current task from `_active_tasks`. -/
def LimitedSemaphore.acquire_exit (s : LimitedSemaphore) (t : Nat) : LimitedSemaphore :=
  { available_count := s.available_count + 1
    active_tasks := s.active_tasks.erase t }

/-- Events interleaved on the semaphore by the cooperative scheduler:
an entry check by some task, the semaphore grant to a previously checked
task, and the `finally` of a previously checked task. -/
inductive SemOp where
  | check
  | grant (t : Nat)
  | leave (t : Nat)
deriving DecidableEq, Repr

/-- One scheduler step on `(semaphore, outstanding)` where `outstanding`
counts the acquires that passed the entry check and have not run their
`finally` yet. A failed check leaves the state unchanged (the error
propagates to the caller). `grant`/`leave` without a matching prior
check cannot occur in the source (the context-manager pairs them), so
such traces are rejected (`none`). -/
def sem_step : LimitedSemaphore × Nat → SemOp → Option (LimitedSemaphore × Nat)
  | (s, out), .check =>
    match s.acquire_check with
    | .error _ => some (s, out)
    | .ok s' => some (s', out + 1)
  | (s, out), .grant t =>
    if out = 0 then none else some (s.acquire_enter t, out)
  | (s, out), .leave t =>
    if out = 0 then none else some (s.acquire_exit t, out - 1)

/-- Run a trace of scheduler events from an initial state. -/
def sem_run (init : LimitedSemaphore × Nat) (ops : List SemOp) :
    Option (LimitedSemaphore × Nat) :=
  ops.foldlM sem_step init

/-! ## finished_sync_up_to updates (`wallet_node.py`)

The only two writers of `finished_sync_up_to`: the end of `long_sync`
(lines 527-528) and the end of `new_peak_wallet` (lines 910-914). -/

/-- Lines 527-528 of `long_sync`: advance `finished_sync_up_to` to
`target_height` only when strictly greater. -/
def long_sync_finish (finished target_height : Nat) : Nat :=
  if target_height > finished then target_height else finished

/-- Lines 910-914 of `new_peak_wallet`: advance `finished_sync_up_to` to
`peak.height` only when the peer is in `synced_peers` and the height is
strictly greater. -/
def new_peak_finish (finished peak_height : Nat) (peer_synced : Bool) : Nat :=
  if peer_synced && decide (peak_height > finished) then peak_height else finished

/-- A processed peak either ends in the `long_sync` update or in the
`new_peak_wallet` tail update. -/
inductive SyncEvent where
  | longSync (target_height : Nat)
  | newPeak (peak_height : Nat) (peer_synced : Bool)
deriving DecidableEq, Repr

/-- Effect of one processed peak on `finished_sync_up_to`. -/
def sync_step (finished : Nat) : SyncEvent → Nat
  | .longSync t => long_sync_finish finished t
  | .newPeak h s => new_peak_finish finished h s

/-- `finished_sync_up_to` after a sequence of processed peaks. -/
def sync_run (finished : Nat) (events : List SyncEvent) : Nat :=
  events.foldl sync_step finished

/-! ## new_peak_wallet weight gate (`wallet_node.py` lines 763-784)

`new_peak_wallet` records the peer's advertised peak in `_node_peaks`,
then returns early when the advertised weight is *below* the local
peak's weight (line 771), and applies the identical check again after
acquiring the low-priority lock (line 783). No wallet state is mutated
on either early return. -/

/-- Line 771 / line 783 check: the advertised peak is discarded iff a
local peak block exists and `peak.weight < peak_hb.weight`. -/
def ignores_peak (local_peak : Option HeaderBlock) (peak_weight : Nat) : Bool :=
  match local_peak with
  | none => false
  | some hb => decide (peak_weight < hb.weight)

/-- Outcome of the two weight checks of `new_peak_wallet`. -/
inductive NewPeakOutcome where
  | ignored_early
  | ignored_after_lock
  | proceed
deriving DecidableEq, Repr

/-- The two-stage weight gate of `new_peak_wallet`: check against the
local peak read before taking the low-priority lock (line 770-773), and
re-check against the (possibly advanced) local peak read after the lock
(lines 782-784). -/
def new_peak_weight_gate (peak_weight : Nat)
    (local_before local_after : Option HeaderBlock) : NewPeakOutcome :=
  if ignores_peak local_before peak_weight then .ignored_early
  else if ignores_peak local_after peak_weight then .ignored_after_lock
  else .proceed

/-! ## Race cache (`wallet_node.py` lines 687-699 and 899-904)

`race_cache : Dict[bytes32, Set[CoinState]]` is an association list from
header hash to a duplicate-free list of coin states;
`race_cache_hashes : List[Tuple[uint32, bytes32]]` is kept verbatim. -/

structure RaceCacheState where
  race_cache : List (Nat × List CoinState)
  race_cache_hashes : List (Nat × Nat)
deriving DecidableEq, Repr

/-- Python `self.race_cache.pop(rc_hh)` (line 692): `KeyError` (`none`)
when the key is absent, otherwise the dict without that key. -/
def race_cache_pop (rc : List (Nat × List CoinState)) (hh : Nat) :
    Option (List (Nat × List CoinState)) :=
  if (rc.find? (fun p => p.1 == hh)).isSome then
    some (rc.filter (fun p => p.1 != hh))
  else none

/-- The eviction loop of `add_state_to_race_cache` (lines 690-692): for
each `(rc_height, rc_hh)` in `race_cache_hashes` with
`height - 100 ≥ rc_height` (Python int arithmetic, hence over `Int`),
pop `rc_hh` from `race_cache`. -/
def race_cache_evict (height : Nat) :
    List (Nat × Nat) → List (Nat × List CoinState) → Option (List (Nat × List CoinState))
  | [], rc => some rc
  | (rc_height, rc_hh) :: rest, rc =>
    if (height : Int) - 100 ≥ (rc_height : Int) then
      match race_cache_pop rc rc_hh with
      | none => none
      | some rc' => race_cache_evict height rest rc'
    else race_cache_evict height rest rc

/-- `WalletNode.add_state_to_race_cache(header_hash, height, coin_state)`
(lines 687-699): run the eviction loop, filter `race_cache_hashes` down
to entries with `height - 100 < rc_height`, then add `coin_state` to the
set stored under `header_hash` (creating an empty set first when the key
is new). Note the source never appends to `race_cache_hashes`. -/
def add_state_to_race_cache (st : RaceCacheState)
    (header_hash height : Nat) (coin_state : CoinState) : Option RaceCacheState :=
  match race_cache_evict height st.race_cache_hashes st.race_cache with
  | none => none
  | some rc =>
    let hashes := st.race_cache_hashes.filter
      (fun p => (height : Int) - 100 < (p.1 : Int))
    let rc' :=
      if (rc.find? (fun p => p.1 == header_hash)).isSome then
        rc.map (fun p =>
          if p.1 == header_hash then
            (p.1, if coin_state ∈ p.2 then p.2 else p.2 ++ [coin_state])
          else p)
      else rc ++ [(header_hash, [coin_state])]
    some { race_cache := rc', race_cache_hashes := hashes }

/-- The race-cache replay loop at the end of the short-sync branch of
`new_peak_wallet` (lines 899-904): for every height in
`(backtrack_fork_height, peak.height]`, look the block hash up in
`race_cache` and, when present, feed the stored coin states through
`receive_state_from_peer`. The loop only reads `race_cache`; the
returned pair is (coin-state batches fed, race cache afterwards). -/
def replay_race_cache (rc : List (Nat × List CoinState))
    (height_to_hash : Nat → Nat) (backtrack_fork_height peak_height : Nat) :
    List (List CoinState) × List (Nat × List CoinState) :=
  let heights := List.range' (backtrack_fork_height + 1)
    (peak_height - backtrack_fork_height)
  let fed := heights.filterMap (fun h =>
    match rc.find? (fun p => p.1 == height_to_hash h) with
    | some p => some p.2
    | none => none)
  (fed, rc)

/-! ## Weight-proof gate (`wallet_node.py` lines 963-998) -/

/-- A reward-chain block of the recent-chain tail, restricted to the two
fields `fetch_and_validate_the_weight_proof` reads. -/
structure RecentChainBlock where
  height : Nat
  weight : Nat
deriving DecidableEq, Repr

/-- A weight proof: its `get_hash()` (abstract `Nat`) and the
`recent_chain_data` tail. -/
structure WeightProof where
  wp_hash : Nat
  recent_chain_data : List RecentChainBlock
deriving DecidableEq, Repr

/-- One entry of `valid_wp_cache`: the tuple
`(valid, fork_point, summaries, block_records)` produced by the external
`validate_weight_proof` (summaries and block records abstracted to id
lists). -/
structure WPCacheEntry where
  valid : Bool
  fork_point : Nat
  summaries : List Nat
  block_records : List Nat
deriving DecidableEq, Repr

/-- Result of one `fetch_and_validate_the_weight_proof` call: the
returned 4-tuple, the updated `valid_wp_cache`, and how many times the
external `validate_weight_proof` was invoked during the call. -/
structure WPFetchResult where
  valid : Bool
  proof : Option WeightProof
  summaries : List Nat
  block_records : List Nat
  cache : List (Nat × WPCacheEntry)
  validator_calls : Nat
deriving DecidableEq, Repr

/-- `WalletNode.fetch_and_validate_the_weight_proof(peer, peak)`
(lines 963-998). `response` is the peer's `RespondProofOfWeight` (or a
timeout), `validator` the external `validate_weight_proof`. A missing
response or a peak height/weight mismatch of `recent_chain_data[-1]`
returns `(False, None, [], [])`; a cache hit on `get_hash()` reuses the
cached tuple; otherwise the validator runs and, when valid, the result
is stored in `valid_wp_cache`. -/
def fetch_and_validate_the_weight_proof
    (valid_wp_cache : List (Nat × WPCacheEntry))
    (validator : WeightProof → WPCacheEntry)
    (response : Option WeightProof)
    (peak_height peak_weight : Nat) : WPFetchResult :=
  match response with
  | none => ⟨false, none, [], [], valid_wp_cache, 0⟩
  | some wp =>
    match wp.recent_chain_data.getLast? with
    | none => ⟨false, none, [], [], valid_wp_cache, 0⟩
    | some last =>
      if last.height ≠ peak_height then ⟨false, none, [], [], valid_wp_cache, 0⟩
      else if last.weight ≠ peak_weight then ⟨false, none, [], [], valid_wp_cache, 0⟩
      else
        match valid_wp_cache.find? (fun p => p.1 == wp.wp_hash) with
        | some entry =>
          ⟨entry.2.valid, some wp, entry.2.summaries, entry.2.block_records,
            valid_wp_cache, 0⟩
        | none =>
          let e := validator wp
          let cache' :=
            if e.valid then valid_wp_cache ++ [(wp.wp_hash, e)] else valid_wp_cache
          ⟨e.valid, some wp, e.summaries, e.block_records, cache', 1⟩

/-! ## Subscription helpers (`wallet_node.py` lines 603-652)

`subscribe_to_phs` and `subscribe_to_coin_updates` share the same
filtering logic. `syncing` is modelled three-valued (`Option Bool`) as
the source checks `syncing is not None`; `filter_fn` is the external
`filter_coin_states`; `response` is the peer's (optional) reply. The
`Except` error is the `assert fork_height is not None` failure. -/

/-- `WalletNode.subscribe_to_phs` (lines 603-626). -/
def subscribe_to_phs (trusted : Bool) (syncing : Option Bool)
    (fork_height : Option Int)
    (filter_fn : List CoinState → Int → List CoinState)
    (response : Option (List CoinState)) : Except Unit (List CoinState) :=
  match response with
  | none => .ok []
  | some coin_states =>
    if !trusted && (syncing == some false) then
      match fork_height with
      | none => .error ()
      | some fh => .ok (filter_fn coin_states fh)
    else .ok coin_states

/-- `WalletNode.subscribe_to_coin_updates` (lines 628-652); the body is
the same filtering logic as `subscribe_to_phs`. -/
def subscribe_to_coin_updates (trusted : Bool) (syncing : Option Bool)
    (fork_height : Option Int)
    (filter_fn : List CoinState → Int → List CoinState)
    (response : Option (List CoinState)) : Except Unit (List CoinState) :=
  match response with
  | none => .ok []
  | some coin_states =>
    if !trusted && (syncing == some false) then
      match fork_height with
      | none => .error ()
      | some fh => .ok (filter_fn coin_states fh)
    else .ok coin_states

/-! ## Short-sync backtrack (`wallet_node.py` lines 917-956)

`wallet_short_sync_backtrack(header_block, peer)` fetches headers
backwards from `header_block` until one whose `prev_header_hash` the
local blockchain contains (or height 0), rolls the wallet back when the
resulting fork height is below the local peak height, and applies the
collected headers forward through `receive_block`.

`contains_block` is `blockchain.contains_block`, `fetch` the peer's
`request_block_header` (a `none` reply raises, line 932-933), and
`fuel` bounds the loop (the Python `while` can loop forever against a
peer answering with non-decreasing heights; `none` covers both that and
a failed fetch). -/

/-- The backward fetch loop (lines 929-937): while the local chain does
not contain `top.prev_header_hash` and `top.height > 0`, request the
header at `top.height - 1`, append it to `blocks` and move `top` and
`fork_height` down. -/
def backtrack_fetch_loop (contains_block : Nat → Bool) (fetch : Nat → Option HeaderBlock) :
    Nat → HeaderBlock → List HeaderBlock → Int → Option (List HeaderBlock × Int)
  | 0, _, _, _ => none
  | fuel + 1, top, blocks, fork_height =>
    if !contains_block top.prev_header_hash && decide (0 < top.height) then
      match fetch (top.height - 1) with
      | none => none
      | some prev_head =>
        backtrack_fetch_loop contains_block fetch fuel prev_head
          (blocks ++ [prev_head]) ((prev_head.height : Int) - 1)
    else some (blocks, fork_height)

/-- Result of `wallet_short_sync_backtrack`: the returned `fork_height`,
the headers passed to `receive_block` in application order (after
`blocks.reverse()`), and whether `reorg_rollback(fork_height)` ran
(line 942: iff `fork_height < peak_height`). -/
structure BacktrackResult where
  fork_height : Int
  blocks : List HeaderBlock
  rolled_back : Bool
deriving DecidableEq, Repr

/-- `WalletNode.wallet_short_sync_backtrack(header_block, peer)`
(lines 917-956). `peak` is `blockchain.get_peak_block()` and
`peak_height` is `blockchain.get_peak_height()`. The initial
`fork_height` is `header_block.height - 1` when the parent is already
local, else 0 (lines 925-927). After the loop the wallet is rolled back
iff `fork_height < peak_height`, the assert
`header_block.weight >= peak.weight` runs (line 948-949, `none` on
failure), and every block of the reversed list goes through
`receive_block`. -/
def wallet_short_sync_backtrack (contains_block : Nat → Bool)
    (fetch : Nat → Option HeaderBlock) (peak : Option HeaderBlock)
    (peak_height : Nat) (header_block : HeaderBlock) (fuel : Nat) :
    Option BacktrackResult :=
  let fork0 : Int :=
    if contains_block header_block.prev_header_hash then
      (header_block.height : Int) - 1
    else 0
  match backtrack_fetch_loop contains_block fetch fuel header_block [header_block] fork0 with
  | none => none
  | some (blocks, fork_height) =>
    let applied := blocks.reverse
    let rolled_back := decide (fork_height < (peak_height : Int))
    match peak with
    | some p =>
      if header_block.weight < p.weight then none
      else some ⟨fork_height, applied, rolled_back⟩
    | none => some ⟨fork_height, applied, rolled_back⟩

/-! ## Coin-state validator (`wallet_node.py` lines 1019-1148)

`validate_received_state_from_peer(coin_state, peer, cache, fork_height)`.
The per-peer request cache is restricted to the two sub-caches this
function touches: `blocks` and `states_validated`. The externals are
oracles: `can_use_cache` is `can_use_peer_request_cache(...)`, `current`
is `coin_store.get_coin_record(coin_state.coin.name())`, `fetch_header h`
is `peer.request_header_blocks(RequestHeaderBlocks(h, h)).header_blocks[0]`
(`none` when the request fails), `validate_additions`/`validate_removals`
are `request_and_validate_additions`/`request_and_validate_removals`
applied to `(height, header_hash, puzzle_hash-or-coin_id, root)`, and
`block_inclusion` is `validate_block_inclusion`. -/

structure PeerRequestCache where
  blocks : List (Nat × HeaderBlock)
  states_validated : List CoinState
deriving DecidableEq, Repr

/-- `peer_request_cache.blocks[h] = b` (dict assignment: overwrite or
append). -/
def cache_store_block (cache : PeerRequestCache) (h : Nat) (b : HeaderBlock) :
    PeerRequestCache :=
  if (cache.blocks.find? (fun p => p.1 == h)).isSome then
    { cache with blocks := cache.blocks.map (fun p => if p.1 == h then (h, b) else p) }
  else
    { cache with blocks := cache.blocks ++ [(h, b)] }

/-- Lines 1048-1052: the received state equals the locally stored record
(with `spent_block_height == 0` standing for unspent, lines 1043-1045). -/
def same_as_current (coin_state : CoinState) (current : Option CoinRecord) : Bool :=
  match current with
  | none => false
  | some cur =>
    let current_spent_height : Option Nat :=
      if cur.spent_block_height == 0 then none else some cur.spent_block_height
    current_spent_height == coin_state.spent_height
      && (some cur.confirmed_block_height : Option Nat) == coin_state.created_height

/-- Lines 1055-1059: reorg detection. When a local record exists but the
peer reports no creation height the coin was reorged out: continue in
`reorg_mode` with the locally confirmed height. Returns
`(reorg_mode, confirmed_height)`. -/
def resolve_confirmed_height (coin_state : CoinState) (current : Option CoinRecord) :
    Bool × Option Nat :=
  match current, coin_state.created_height with
  | some cur, none => (true, some cur.confirmed_block_height)
  | _, ch => (false, ch)

/-- Look up `h` in the `blocks` sub-cache followed by the
cache-or-network fetch of lines 1065-1071 / 1098-1105 / 1124-1131:
when `use_cache` holds and the block is cached, use it; otherwise fetch
from the peer (checking, when `check_height` holds, the assert that the
returned block has the requested height) and store it. Returns the block
and the updated cache, `none` on a failed fetch or failed assert. -/
def fetch_block_through_cache (cache : PeerRequestCache)
    (fetch_header : Nat → Option HeaderBlock) (h : Nat)
    (use_cache check_height : Bool) :
    Option (HeaderBlock × PeerRequestCache) :=
  match cache.blocks.find? (fun p => p.1 == h), use_cache with
  | some p, true => some (p.2, cache)
  | _, _ =>
    match fetch_header h with
    | none => none
    | some b =>
      if check_height && (b.height != h) then none
      else some (b, cache_store_block cache h b)


/-- Outcome of one removal-check block inside
`validate_received_state_from_peer`: either the function returns with
`(result, cache, close_codes)`, or control falls through with the
updated cache. -/
inductive ValidateStep where
  | finish (result : Bool) (cache : PeerRequestCache) (close_codes : List Nat)
  | next (cache : PeerRequestCache)
deriving DecidableEq, Repr

/-- Lines 1093-1120: when the peer claims a coin the wallet recorded as
spent is now unspent, validate the removal proof of the *old* spent
block (`current.spent_block_height`). `reorg_mode` is set just above the
fetch (line 1096-1097, the compared `spent_height` is `None` here), so
the cached block is never used. A failed proof closes the peer with 9999
and returns `False`; a failed chain inclusion returns `False`. -/
def validate_unspend_check (coin_state : CoinState) (cur : CoinRecord)
    (cache : PeerRequestCache) (fetch_header : Nat → Option HeaderBlock)
    (validate_removals : Nat → Nat → Nat → Nat → Bool)
    (block_inclusion : HeaderBlock → Bool) : Except Unit ValidateStep :=
  match fetch_block_through_cache cache fetch_header cur.spent_block_height false true with
  | none => .error ()
  | some (spent_state_block, cache') =>
    match spent_state_block.foliage_transaction_block with
    | none => .error ()  -- line 1106 assert
    | some sftb =>
      if !validate_removals cur.spent_block_height spent_state_block.header_hash
          coin_state.coin.coin_id sftb.removals_root then
        .ok (.finish false cache' [9999])
      else if !block_inclusion spent_state_block then
        .ok (.finish false cache' [])
      else .ok (.next cache')

/-- Lines 1122-1146: when the peer reports a spent height, validate the
removal proof at that height (cache-or-network fetch with the height
assert of line 1130). A failed proof closes the peer with 9999 and
returns `False`; a failed chain inclusion returns `False`. -/
def validate_spend_check (coin_state : CoinState) (sh : Nat)
    (cache : PeerRequestCache) (fetch_header : Nat → Option HeaderBlock)
    (validate_removals : Nat → Nat → Nat → Nat → Bool)
    (block_inclusion : HeaderBlock → Bool) : Except Unit ValidateStep :=
  match fetch_block_through_cache cache fetch_header sh true true with
  | none => .error ()
  | some (spent_state_block, cache') =>
    match spent_state_block.foliage_transaction_block with
    | none => .error ()  -- line 1132 assert
    | some sftb =>
      if !validate_removals spent_state_block.height spent_state_block.header_hash
          coin_state.coin.coin_id sftb.removals_root then
        .ok (.finish false cache' [9999])
      else if !block_inclusion spent_state_block then
        .ok (.finish false cache' [])
      else .ok (.next cache')

/-- Line 1147: record the state in the `states_validated` sub-cache. -/
def cache_mark_validated (cache : PeerRequestCache) (coin_state : CoinState) :
    PeerRequestCache :=
  { cache with states_validated :=
      if coin_state ∈ cache.states_validated then cache.states_validated
      else cache.states_validated ++ [coin_state] }

/-- `WalletNode.validate_received_state_from_peer` (lines 1019-1148).
Returns `(result, cache', close_codes)` where `close_codes` lists the
codes of `peer.close(...)` calls made (the source only ever uses 9999
here); `.error ()` is an uncaught exception (failed fetch or assert). -/
def validate_received_state_from_peer
    (coin_state : CoinState) (cache : PeerRequestCache)
    (can_use_cache : Bool) (current : Option CoinRecord)
    (fetch_header : Nat → Option HeaderBlock)
    (validate_additions : Nat → Nat → Nat → Nat → Bool)
    (validate_removals : Nat → Nat → Nat → Nat → Bool)
    (block_inclusion : HeaderBlock → Bool) :
    Except Unit (Bool × PeerRequestCache × List Nat) :=
  -- lines 1034-1035: peer-request-cache short-circuit
  if can_use_cache then .ok (true, cache, [])
  -- lines 1048-1053: remote state equals local state
  else if same_as_current coin_state current then .ok (true, cache, [])
  else
    match resolve_confirmed_height coin_state current with
    -- lines 1061-1062: nothing to prove
    | (_, none) => .ok (false, cache, [])
    | (reorg_mode, some confirmed_height) =>
      -- lines 1064-1071: header block at the creation height
      match fetch_block_through_cache cache fetch_header confirmed_height
          (!reorg_mode) false with
      | none => .error ()
      | some (state_block, cache1) =>
        -- line 1074: assert foliage_transaction_block is not None
        match state_block.foliage_transaction_block with
        | none => .error ()
        | some ftb =>
          -- lines 1075-1086: additions Merkle proof, close(9999) on failure
          if !validate_additions state_block.height state_block.header_hash
              coin_state.coin.puzzle_hash ftb.additions_root then
            .ok (false, cache1, [9999])
          -- lines 1089-1091: chain inclusion of the creation block
          else if !block_inclusion state_block then .ok (false, cache1, [])
          else
            -- lines 1093-1120: previously-spent coin reported unspent
            let unspend : Except Unit ValidateStep :=
              match coin_state.spent_height, current with
              | none, some cur =>
                if cur.spent_block_height != 0 then
                  validate_unspend_check coin_state cur cache1 fetch_header
                    validate_removals block_inclusion
                else .ok (.next cache1)
              | _, _ => .ok (.next cache1)
            match unspend with
            | .error _ => .error ()
            | .ok (.finish r c codes) => .ok (r, c, codes)
            | .ok (.next cache2) =>
              -- lines 1122-1146: removal proof at the reported spent height
              match coin_state.spent_height with
              | none => .ok (true, cache_mark_validated cache2 coin_state, [])
              | some sh =>
                match validate_spend_check coin_state sh cache2 fetch_header
                    validate_removals block_inclusion with
                | .error _ => .error ()
                | .ok (.finish r c codes) => .ok (r, c, codes)
                | .ok (.next cache3) =>
                  .ok (true, cache_mark_validated cache3 coin_state, [])

/-! ## Theorems -/

/-- Helper: `acquire_check` errors exactly when `_available_count < 1`. -/
theorem acquire_check_error_iff (s : LimitedSemaphore) :
    s.acquire_check = .error () ↔ s.available_count < 1 := by
  unfold LimitedSemaphore.acquire_check
  split <;> simp_all

/-- Helper: a successful `acquire_check` decrements `_available_count`
and touches nothing else. -/
theorem acquire_check_ok (s s' : LimitedSemaphore)
    (h : s.acquire_check = .ok s') :
    ¬ s.available_count < 1 ∧
      s' = { s with available_count := s.available_count - 1 } := by
  unfold LimitedSemaphore.acquire_check at h
  split at h <;> simp_all

/-- Helper: along every scheduler trace, `_available_count` plus the
number of outstanding acquires is conserved at `active_limit +
waiting_limit`, and `_available_count` never goes negative. -/
theorem sem_run_conserved (al wl : Nat) (ops : List SemOp) :
    ∀ (s₀ : LimitedSemaphore) (out₀ : Nat) (s : LimitedSemaphore) (out : Nat),
      s₀.available_count + (out₀ : Int) = (al : Int) + wl → 0 ≤ s₀.available_count →
      sem_run (s₀, out₀) ops = some (s, out) →
      s.available_count + (out : Int) = (al : Int) + wl ∧ 0 ≤ s.available_count := by
  induction ops with
  | nil =>
    intro s₀ out₀ s out hsum hpos hrun
    simp [sem_run] at hrun
    obtain ⟨h1, h2⟩ := hrun
    subst h1; subst h2; exact ⟨hsum, hpos⟩
  | cons op rest ih =>
    intro s₀ out₀ s out hsum hpos hrun
    rw [sem_run, List.foldlM_cons] at hrun
    cases hstep : sem_step (s₀, out₀) op with
    | none => rw [hstep] at hrun; simp at hrun
    | some p =>
      obtain ⟨s₁, out₁⟩ := p
      rw [hstep] at hrun
      rw [show (some (s₁, out₁) >>= fun b => rest.foldlM sem_step b) =
            rest.foldlM sem_step (s₁, out₁) from rfl] at hrun
      have hinv : s₁.available_count + (out₁ : Int) = (al : Int) + wl ∧
          0 ≤ s₁.available_count := by
        cases op with
        | check =>
          simp only [sem_step] at hstep
          cases hchk : s₀.acquire_check with
          | error e =>
            rw [hchk] at hstep
            simp only [Option.some.injEq, Prod.mk.injEq] at hstep
            obtain ⟨rfl, rfl⟩ := hstep
            exact ⟨hsum, hpos⟩
          | ok s' =>
            rw [hchk] at hstep
            obtain ⟨hge, rfl⟩ := acquire_check_ok s₀ s' hchk
            simp only [Option.some.injEq, Prod.mk.injEq] at hstep
            obtain ⟨rfl, rfl⟩ := hstep
            refine ⟨?_, ?_⟩
            · show s₀.available_count - 1 + ((out₀ + 1 : Nat) : Int) = (al : Int) + wl
              push_cast
              omega
            · show 0 ≤ s₀.available_count - 1
              omega
        | grant t =>
          simp only [sem_step] at hstep
          split at hstep
          · simp at hstep
          · simp only [Option.some.injEq, Prod.mk.injEq] at hstep
            obtain ⟨rfl, rfl⟩ := hstep
            exact ⟨hsum, hpos⟩
        | leave t =>
          simp only [sem_step] at hstep
          split at hstep
          · simp at hstep
          · simp only [Option.some.injEq, Prod.mk.injEq] at hstep
            obtain ⟨rfl, rfl⟩ := hstep
            refine ⟨?_, ?_⟩
            · show s₀.available_count + 1 + ((out₀ - 1 : Nat) : Int) = (al : Int) + wl
              omega
            · show 0 ≤ s₀.available_count + 1
              omega
      exact ih s₁ out₁ s out hinv.1 hinv.2 hrun

/-- C9: for every `LimitedSemaphore`, along every scheduler trace,
`0 ≤ _available_count ≤ active_limit + waiting_limit`; the `finally`
block of `acquire` (which runs on every exit path of the guarded
section, exceptions included) increments `_available_count` by exactly
one and removes the current task from `_active_tasks`; and a balanced
entry-check / guarded-entry / exit triple restores the semaphore state
exactly. -/
theorem C9_semaphore_invariant (al wl : Nat) :
    (∀ (ops : List SemOp) (s : LimitedSemaphore) (out : Nat),
      sem_run (LimitedSemaphore.create al wl, 0) ops = some (s, out) →
      0 ≤ s.available_count ∧ s.available_count ≤ (al : Int) + wl) ∧
    (∀ (s : LimitedSemaphore) (t : Nat),
      (s.acquire_exit t).available_count = s.available_count + 1 ∧
      t ∉ (s.acquire_exit t).active_tasks) ∧
    (∀ (s s' : LimitedSemaphore) (t : Nat), t ∉ s.active_tasks →
      s.acquire_check = .ok s' → (s'.acquire_enter t).acquire_exit t = s) := by
  refine ⟨?_, ?_, ?_⟩
  · intro ops s out hrun
    have h := sem_run_conserved al wl ops (LimitedSemaphore.create al wl) 0 s out
      (by simp [LimitedSemaphore.create]) (by simp [LimitedSemaphore.create]; positivity)
      hrun
    omega
  · intro s t
    exact ⟨rfl, Finset.not_mem_erase t s.active_tasks⟩
  · intro s s' t hnot hok
    obtain ⟨_, rfl⟩ := acquire_check_ok s s' hok
    unfold LimitedSemaphore.acquire_enter LimitedSemaphore.acquire_exit
    simp only
    rw [Finset.erase_insert hnot]
    have : s.available_count - 1 + 1 = s.available_count := by omega
    rw [this]

/-- Witness for C9 at `active_limit = 2, waiting_limit = 1`, the trace
`check; grant 5; leave 5`, and the balanced-pair identity at task 7. -/
theorem C9_semaphore_invariant_witness :
    (sem_run (LimitedSemaphore.create 2 1, 0) [.check, .grant 5, .leave 5]
        = some (⟨3, ∅⟩, 0) ∧
      0 ≤ (⟨3, ∅⟩ : LimitedSemaphore).available_count ∧
      (⟨3, ∅⟩ : LimitedSemaphore).available_count ≤ ((2 : Nat) : Int) + (1 : Nat)) ∧
    ((LimitedSemaphore.create 2 1).acquire_exit 7).available_count
        = (LimitedSemaphore.create 2 1).available_count + 1 ∧
    (7 ∉ (LimitedSemaphore.create 2 1).active_tasks ∧
      (LimitedSemaphore.create 2 1).acquire_check = .ok ⟨2, ∅⟩ ∧
      ((⟨2, ∅⟩ : LimitedSemaphore).acquire_enter 7).acquire_exit 7
        = LimitedSemaphore.create 2 1) := by
  refine ⟨⟨by decide, (C9_semaphore_invariant 2 1).1 [.check, .grant 5, .leave 5]
      ⟨3, ∅⟩ 0 (by decide)⟩, ((C9_semaphore_invariant 2 1).2.1 (LimitedSemaphore.create 2 1) 7).1,
    by decide, rfl, (C9_semaphore_invariant 2 1).2.2 (LimitedSemaphore.create 2 1)
      ⟨2, ∅⟩ 7 (by decide) rfl⟩

/-- C4: an acquire's entry check raises `LimitedSemaphoreFullError`
exactly when the number of outstanding entrants (active plus waiting)
equals `active_limit + waiting_limit`; in particular with
`active_limit = 2, waiting_limit = 1` a fourth acquire while three are
outstanding fails, and after one leaves the next acquire succeeds. -/
theorem C4_semaphore_full_iff (al wl : Nat) (ops : List SemOp)
    (s : LimitedSemaphore) (out : Nat)
    (hrun : sem_run (LimitedSemaphore.create al wl, 0) ops = some (s, out)) :
    s.acquire_check = .error () ↔ out = al + wl := by
  have h := sem_run_conserved al wl ops (LimitedSemaphore.create al wl) 0 s out
    (by simp [LimitedSemaphore.create]) (by simp [LimitedSemaphore.create]; positivity)
    hrun
  rw [acquire_check_error_iff]
  omega

/-- Witness for C4 with `active_limit = 2, waiting_limit = 1`: after
three entry checks the state is full (`_available_count = 0`,
3 outstanding) and the fourth check fails; after one leave
(2 outstanding) the check succeeds. -/
theorem C4_semaphore_full_iff_witness :
    (sem_run (LimitedSemaphore.create 2 1, 0) [.check, .check, .check]
        = some (⟨0, ∅⟩, 3) ∧
      ((⟨0, ∅⟩ : LimitedSemaphore).acquire_check = .error () ↔ 3 = 2 + 1)) ∧
    (sem_run (LimitedSemaphore.create 2 1, 0) [.check, .check, .check, .leave 9]
        = some (⟨1, ∅⟩, 2) ∧
      ((⟨1, ∅⟩ : LimitedSemaphore).acquire_check = .error () ↔ 2 = 2 + 1)) := by
  refine ⟨⟨by decide, C4_semaphore_full_iff 2 1 [.check, .check, .check] ⟨0, ∅⟩ 3
      (by decide)⟩,
    ⟨by decide, C4_semaphore_full_iff 2 1 [.check, .check, .check, .leave 9] ⟨1, ∅⟩ 2
      (by decide)⟩⟩

/-- Helper: each `finished_sync_up_to` writer never decreases the value. -/
theorem sync_step_le (finished : Nat) (e : SyncEvent) :
    finished ≤ sync_step finished e := by
  cases e with
  | longSync t =>
    simp only [sync_step, long_sync_finish]
    split <;> omega
  | newPeak h s =>
    simp only [sync_step, new_peak_finish]
    split <;> simp_all <;> omega

/-- C8: `finished_sync_up_to` is non-decreasing across any sequence of
processed peaks: both writers — the end of `long_sync` (lines 527-528)
and the tail of `new_peak_wallet` (lines 910-914) — only move it to a
strictly greater value and otherwise leave it unchanged. -/
theorem C8_finished_sync_up_to_monotone (finished : Nat) (events : List SyncEvent) :
    finished ≤ sync_run finished events ∧
    (∀ target_height, finished ≤ long_sync_finish finished target_height) ∧
    (∀ peak_height peer_synced,
      finished ≤ new_peak_finish finished peak_height peer_synced) := by
  refine ⟨?_, fun t => sync_step_le finished (.longSync t),
    fun h s => sync_step_le finished (.newPeak h s)⟩
  induction events generalizing finished with
  | nil => simp [sync_run]
  | cons e rest ih =>
    calc finished ≤ sync_step finished e := sync_step_le finished e
      _ ≤ sync_run (sync_step finished e) rest := ih (sync_step finished e)
      _ = sync_run finished (e :: rest) := rfl

/-- C1 counterexample: with a local peak block of weight 5 and an
advertised peak of equal weight 5 the claim's condition
"local weight ≥ advertised weight" holds, yet `new_peak_wallet` does not
ignore the peak: both weight checks pass and processing proceeds
(line 771 tests `peak.weight < peak_hb.weight`, which is false for equal
weights — the source comment says it "accepts blocks that are equal in
weight to peak"). -/
theorem C1_counterexample_equal_weight :
    5 ≤ (⟨100, 5, 1, 0, none⟩ : HeaderBlock).weight ∧
    new_peak_weight_gate 5 (some ⟨100, 5, 1, 0, none⟩) (some ⟨100, 5, 1, 0, none⟩)
      = NewPeakOutcome.proceed := by decide

/-- C1 (amended): `new_peak_wallet` ignores an advertised peak iff the
local peak block exists and its weight is *strictly greater* than the
advertised weight; the identical strict rule is re-applied to the
(possibly advanced) local peak after acquiring the low-priority lock,
and processing proceeds exactly when neither check fires. Both early
returns happen before any wallet mutation (only `_node_peaks` was
updated, on line 767, before the first check). -/
theorem C1_new_peak_ignored_iff_strictly_heavier (peak_weight : Nat)
    (local_before local_after : Option HeaderBlock) :
    (new_peak_weight_gate peak_weight local_before local_after = .ignored_early ↔
      ∃ hb, local_before = some hb ∧ peak_weight < hb.weight) ∧
    (new_peak_weight_gate peak_weight local_before local_after = .ignored_after_lock ↔
      (∀ hb, local_before = some hb → hb.weight ≤ peak_weight) ∧
      ∃ hb, local_after = some hb ∧ peak_weight < hb.weight) ∧
    (new_peak_weight_gate peak_weight local_before local_after = .proceed ↔
      (∀ hb, local_before = some hb → hb.weight ≤ peak_weight) ∧
      (∀ hb, local_after = some hb → hb.weight ≤ peak_weight)) := by
  cases local_before with
  | none =>
    cases local_after with
    | none => simp [new_peak_weight_gate, ignores_peak]
    | some hb =>
      simp [new_peak_weight_gate, ignores_peak]
      by_cases h : peak_weight < hb.weight <;> simp [h] <;> omega
  | some hb₀ =>
    cases local_after with
    | none =>
      simp [new_peak_weight_gate, ignores_peak]
      by_cases h : peak_weight < hb₀.weight <;> simp [h] <;> omega
    | some hb₁ =>
      simp [new_peak_weight_gate, ignores_peak]
      by_cases h0 : peak_weight < hb₀.weight <;>
        by_cases h1 : peak_weight < hb₁.weight <;> simp [h0, h1] <;> omega

/-- C5: the spec's race-cache scenario evaluated on the source code.
Four inserts at heights 10, 100, 150, 260 under distinct header hashes
11, 12, 13, 14 leave **all four** entries in `race_cache` and leave
`race_cache_hashes` empty: `add_state_to_race_cache` never appends to
`race_cache_hashes` (and nothing else in the module does), so the
eviction loop of lines 690-695 iterates over an empty list and nothing
is ever evicted — contradicting the claimed eviction of every entry with
height ≤ 160 and the claimed once-per-key hashes-list invariant. -/
theorem C5_race_cache_eviction_dead :
    ((add_state_to_race_cache ⟨[], []⟩ 11 10 ⟨⟨1, 1⟩, none, none⟩).bind fun st1 =>
      (add_state_to_race_cache st1 12 100 ⟨⟨2, 2⟩, none, none⟩).bind fun st2 =>
      (add_state_to_race_cache st2 13 150 ⟨⟨3, 3⟩, none, none⟩).bind fun st3 =>
      add_state_to_race_cache st3 14 260 ⟨⟨4, 4⟩, none, none⟩)
      = some ⟨[(11, [⟨⟨1, 1⟩, none, none⟩]), (12, [⟨⟨2, 2⟩, none, none⟩]),
              (13, [⟨⟨3, 3⟩, none, none⟩]), (14, [⟨⟨4, 4⟩, none, none⟩])], []⟩ := by
  decide

/-- C6 counterexample: with `race_cache = {1 ↦ {c}}`,
`height_to_hash = id`, `backtrack_fork_height = 0` and `peak_height = 1`,
the replay loop of `new_peak_wallet` (lines 899-904) feeds the states
stored under hash 1 through `receive_state_from_peer`, yet hash 1 is
still a key of the race cache afterwards — the source only reads
`self.race_cache[header_hash]` and never removes the entry, refuting
"the replayed header hashes are no longer present in the race cache". -/
theorem C6_counterexample_entry_not_removed :
    (replay_race_cache [(1, [⟨⟨1, 1⟩, none, none⟩])] (fun h => h) 0 1).1
      = [[⟨⟨1, 1⟩, none, none⟩]] ∧
    ((replay_race_cache [(1, [⟨⟨1, 1⟩, none, none⟩])] (fun h => h) 0 1).2.find?
      (fun p => p.1 == 1)).isSome = true := by
  decide

/-- C6 (amended): replaying the race cache over
`(backtrack_fork_height, peak.height]` feeds through
`receive_state_from_peer` exactly the coin-state sets stored under the
replayed block hashes, but removes nothing: the race cache after the
loop equals the race cache before it (entries leave the race cache only
through `add_state_to_race_cache` eviction, not through replay). -/
theorem C6_replay_feeds_without_removing (rc : List (Nat × List CoinState))
    (height_to_hash : Nat → Nat) (fork_height peak_height : Nat) :
    (replay_race_cache rc height_to_hash fork_height peak_height).2 = rc ∧
    (∀ h p, fork_height < h → h ≤ peak_height →
      rc.find? (fun q => q.1 == height_to_hash h) = some p →
      p.2 ∈ (replay_race_cache rc height_to_hash fork_height peak_height).1) := by
  refine ⟨rfl, ?_⟩
  intro h p h1 h2 hfind
  simp only [replay_race_cache, List.mem_filterMap]
  refine ⟨h, ?_, ?_⟩
  · rw [List.mem_range'_1]
    omega
  · rw [hfind]

/-- Witness for C6 (amended) at a one-entry race cache replayed over
heights `(0, 1]` with the identity height-to-hash map. -/
theorem C6_replay_feeds_without_removing_witness :
    (replay_race_cache [(1, [⟨⟨1, 1⟩, none, none⟩])] (fun h => h) 0 1).2
      = [(1, [⟨⟨1, 1⟩, none, none⟩])] ∧
    [(⟨⟨1, 1⟩, none, none⟩ : CoinState)]
      ∈ (replay_race_cache [(1, [⟨⟨1, 1⟩, none, none⟩])] (fun h => h) 0 1).1 :=
  ⟨(C6_replay_feeds_without_removing [(1, [⟨⟨1, 1⟩, none, none⟩])] (fun h => h) 0 1).1,
    (C6_replay_feeds_without_removing [(1, [⟨⟨1, 1⟩, none, none⟩])] (fun h => h) 0 1).2
      1 (1, [⟨⟨1, 1⟩, none, none⟩]) (by decide) (by decide) (by decide)⟩

/-- C7 counterexample: two successive
`fetch_and_validate_the_weight_proof` calls for the same proof hash 7,
both passing the peak height/weight match (`recent_chain_data[-1]` is
`(height 10, weight 20)` and the claimed peak is `(10, 20)`), invoke the
external validator **twice** when the validator deems the proof invalid:
line 993-994 only stores the tuple in `valid_wp_cache` when `valid`
holds, so an invalid result is never cached and the second call
re-validates — refuting "invoked exactly once" as stated. -/
theorem C7_counterexample_invalid_validated_twice :
    (fetch_and_validate_the_weight_proof [] (fun _ => ⟨false, 0, [], []⟩)
        (some ⟨7, [⟨10, 20⟩]⟩) 10 20).validator_calls +
      (fetch_and_validate_the_weight_proof
        (fetch_and_validate_the_weight_proof [] (fun _ => ⟨false, 0, [], []⟩)
          (some ⟨7, [⟨10, 20⟩]⟩) 10 20).cache
        (fun _ => ⟨false, 0, [], []⟩) (some ⟨7, [⟨10, 20⟩]⟩) 10 20).validator_calls
      = 2 := by
  decide

/-- C7 (amended): for two successive calls receiving the same weight
proof (same hash), both passing the peak height/weight match, **whose
validation succeeds**: the first call invokes the external
`validate_weight_proof` exactly once and stores
`(valid, fork_point, summaries, block_records)` in `valid_wp_cache`, and
the second call reuses the cached tuple with zero validator invocations.
(When validation fails the tuple is not cached and the second call
re-validates.) -/
theorem C7_wp_cache_validate_once (c : List (Nat × WPCacheEntry))
    (validator : WeightProof → WPCacheEntry) (wp : WeightProof)
    (last : RecentChainBlock)
    (hlast : wp.recent_chain_data.getLast? = some last)
    (hmiss : c.find? (fun p => p.1 == wp.wp_hash) = none)
    (hvalid : (validator wp).valid = true) :
    fetch_and_validate_the_weight_proof c validator (some wp) last.height last.weight
      = ⟨true, some wp, (validator wp).summaries, (validator wp).block_records,
          c ++ [(wp.wp_hash, validator wp)], 1⟩ ∧
    fetch_and_validate_the_weight_proof (c ++ [(wp.wp_hash, validator wp)]) validator
        (some wp) last.height last.weight
      = ⟨true, some wp, (validator wp).summaries, (validator wp).block_records,
          c ++ [(wp.wp_hash, validator wp)], 0⟩ := by
  have hfind : (c ++ [(wp.wp_hash, validator wp)]).find? (fun p => p.1 == wp.wp_hash)
      = some (wp.wp_hash, validator wp) := by
    rw [List.find?_append, hmiss]
    simp
  constructor
  · simp [fetch_and_validate_the_weight_proof, hlast, hmiss, hvalid]
  · simp [fetch_and_validate_the_weight_proof, hlast, hfind, hvalid]

/-- Witness for C7 (amended) at the empty cache, a constant-valid
validator, and the proof `(hash 7, recent tail [(10, 20)])`. -/
theorem C7_wp_cache_validate_once_witness :
    fetch_and_validate_the_weight_proof [] (fun _ => ⟨true, 3, [4], [5]⟩)
        (some ⟨7, [⟨10, 20⟩]⟩) 10 20
      = ⟨true, some ⟨7, [⟨10, 20⟩]⟩, [4], [5], [(7, ⟨true, 3, [4], [5]⟩)], 1⟩ ∧
    fetch_and_validate_the_weight_proof [(7, ⟨true, 3, [4], [5]⟩)]
        (fun _ => ⟨true, 3, [4], [5]⟩) (some ⟨7, [⟨10, 20⟩]⟩) 10 20
      = ⟨true, some ⟨7, [⟨10, 20⟩]⟩, [4], [5], [(7, ⟨true, 3, [4], [5]⟩)], 0⟩ :=
  C7_wp_cache_validate_once [] (fun _ => ⟨true, 3, [4], [5]⟩) ⟨7, [⟨10, 20⟩]⟩
    ⟨10, 20⟩ rfl rfl rfl

/-- Helper: one unfolding of the backward fetch loop. -/
theorem backtrack_fetch_loop_succ (cb : Nat → Bool) (f : Nat → Option HeaderBlock)
    (fuel : Nat) (top : HeaderBlock) (blocks : List HeaderBlock) (fork_height : Int) :
    backtrack_fetch_loop cb f (fuel + 1) top blocks fork_height
      = if !cb top.prev_header_hash && decide (0 < top.height) then
          match f (top.height - 1) with
          | none => none
          | some prev_head =>
            backtrack_fetch_loop cb f fuel prev_head (blocks ++ [prev_head])
              ((prev_head.height : Int) - 1)
        else some (blocks, fork_height) := rfl

/-- C2 counterexample: local chain with hashes `0..100` (peak height
100), new peak header at height 103 (hash 1103) whose ancestors at
heights 102, 101, 100 carry hashes 1102, 1101, 1100, and whose ancestor
at height 99 (hash 99) is the first locally-known block.
`wallet_short_sync_backtrack` returns `fork_height = 99` and rolls back
(99 < 100), but applies `receive_block` to **four** headers — the three
fetched ones (heights 102, 101, 100) *plus* the new peak header itself
(line 922 seeds `blocks = [top]`) — refuting "exactly three
receive_block applications". -/
theorem C2_counterexample_four_applications :
    (wallet_short_sync_backtrack (fun h => decide (h ≤ 100))
      (fun h => if h == 102 then some ⟨102, 40, 1102, 1101, none⟩
        else if h == 101 then some ⟨101, 30, 1101, 1100, none⟩
        else if h == 100 then some ⟨100, 20, 1100, 99, none⟩ else none)
      (some ⟨100, 10, 100, 99, none⟩) 100 ⟨103, 50, 1103, 1102, none⟩ 10).map
      (fun r => (r.fork_height, r.blocks.length, r.rolled_back))
      = some (99, 4, true) := by decide

/-- C2 (amended): starting from a local peak at height 100, processing a
new peak header at height 103 whose ancestor at height 99 is the first
locally-known block yields `fork_height = 99`, **four** `receive_block`
applications (the three fetched headers at heights 102, 101, 100 plus
the new peak header itself), and a wallet rollback to the fork height —
which happens iff the fork height is below the current local peak
height, true here since 99 < 100. -/
theorem C2_short_sync_backtrack_scenario
    (contains_block : Nat → Bool) (fetch : Nat → Option HeaderBlock)
    (peak : Option HeaderBlock) (hb100 hb101 hb102 hb103 : HeaderBlock) (fuel : Nat)
    (h103 : hb103.height = 103) (h102 : hb102.height = 102)
    (h101 : hb101.height = 101) (h100 : hb100.height = 100)
    (hf102 : fetch 102 = some hb102) (hf101 : fetch 101 = some hb101)
    (hf100 : fetch 100 = some hb100)
    (hc103 : contains_block hb103.prev_header_hash = false)
    (hc102 : contains_block hb102.prev_header_hash = false)
    (hc101 : contains_block hb101.prev_header_hash = false)
    (hc100 : contains_block hb100.prev_header_hash = true)
    (hw : ∀ p, peak = some p → p.weight ≤ hb103.weight) :
    wallet_short_sync_backtrack contains_block fetch peak 100 hb103 (fuel + 4)
      = some ⟨99, [hb100, hb101, hb102, hb103], true⟩ ∧
    ([hb100, hb101, hb102, hb103] : List HeaderBlock).length = 4 := by
  have l1 : backtrack_fetch_loop contains_block fetch (fuel + 4) hb103 [hb103] 0
      = backtrack_fetch_loop contains_block fetch (fuel + 3) hb102
        [hb103, hb102] ((hb102.height : Int) - 1) := by
    rw [show fuel + 4 = (fuel + 3) + 1 from rfl, backtrack_fetch_loop_succ]
    simp [hc103, h103, hf102]
  have l2 : backtrack_fetch_loop contains_block fetch (fuel + 3) hb102
        [hb103, hb102] ((hb102.height : Int) - 1)
      = backtrack_fetch_loop contains_block fetch (fuel + 2) hb101
        [hb103, hb102, hb101] ((hb101.height : Int) - 1) := by
    rw [show fuel + 3 = (fuel + 2) + 1 from rfl, backtrack_fetch_loop_succ]
    simp [hc102, h102, hf101]
  have l3 : backtrack_fetch_loop contains_block fetch (fuel + 2) hb101
        [hb103, hb102, hb101] ((hb101.height : Int) - 1)
      = backtrack_fetch_loop contains_block fetch (fuel + 1) hb100
        [hb103, hb102, hb101, hb100] ((hb100.height : Int) - 1) := by
    rw [show fuel + 2 = (fuel + 1) + 1 from rfl, backtrack_fetch_loop_succ]
    simp [hc101, h101, hf100]
  have l4 : backtrack_fetch_loop contains_block fetch (fuel + 1) hb100
        [hb103, hb102, hb101, hb100] ((hb100.height : Int) - 1)
      = some ([hb103, hb102, hb101, hb100], 99) := by
    rw [backtrack_fetch_loop_succ]
    simp [hc100, h100]
  refine ⟨?_, rfl⟩
  unfold wallet_short_sync_backtrack
  rw [hc103]
  simp only [if_false, Bool.false_eq_true]
  rw [l1, l2, l3, l4]
  simp only [List.reverse_cons, List.reverse_nil, List.nil_append, List.cons_append,
    List.append_assoc, List.singleton_append]
  cases peak with
  | none => simp
  | some p =>
    have hple := hw p rfl
    simp only [Option.some.injEq]
    rw [if_neg (by omega)]
    simp

/-- Witness for C2 (amended) at the concrete scenario of the
counterexample (local hashes `0..100`, new-chain hashes `1100..1103`). -/
theorem C2_short_sync_backtrack_scenario_witness :
    wallet_short_sync_backtrack (fun h => decide (h ≤ 100))
      (fun h => if h == 102 then some ⟨102, 40, 1102, 1101, none⟩
        else if h == 101 then some ⟨101, 30, 1101, 1100, none⟩
        else if h == 100 then some ⟨100, 20, 1100, 99, none⟩ else none)
      (some ⟨100, 10, 100, 99, none⟩) 100 ⟨103, 50, 1103, 1102, none⟩ (6 + 4)
      = some ⟨99, [⟨100, 20, 1100, 99, none⟩, ⟨101, 30, 1101, 1100, none⟩,
          ⟨102, 40, 1102, 1101, none⟩, ⟨103, 50, 1103, 1102, none⟩], true⟩ ∧
    ([(⟨100, 20, 1100, 99, none⟩ : HeaderBlock), ⟨101, 30, 1101, 1100, none⟩,
        ⟨102, 40, 1102, 1101, none⟩, ⟨103, 50, 1103, 1102, none⟩]).length = 4 :=
  C2_short_sync_backtrack_scenario (fun h => decide (h ≤ 100))
    (fun h => if h == 102 then some ⟨102, 40, 1102, 1101, none⟩
      else if h == 101 then some ⟨101, 30, 1101, 1100, none⟩
      else if h == 100 then some ⟨100, 20, 1100, 99, none⟩ else none)
    (some ⟨100, 10, 100, 99, none⟩) ⟨100, 20, 1100, 99, none⟩
    ⟨101, 30, 1101, 1100, none⟩ ⟨102, 40, 1102, 1101, none⟩ ⟨103, 50, 1103, 1102, none⟩
    6 rfl rfl rfl rfl (by decide) (by decide) (by decide) (by decide) (by decide)
    (by decide) (by decide) (by intro p hp; cases hp; decide)

/-- C10: subscription-helper filtering. With an untrusted peer,
`syncing = False` and `fork_height = None`, both `subscribe_to_phs` and
`subscribe_to_coin_updates` hit the `assert fork_height is not None`
(lines 622/648) when the peer responded; with a fork height supplied in
that case the result is `filter_coin_states(response, fork_height)`; in
every other case (trusted peer, or `syncing` is `None` or `True`) the
peer's coin states are returned unfiltered; and a missing peer response
yields the empty list. -/
theorem C10_subscribe_filtering (trusted : Bool) (syncing : Option Bool)
    (fork_height : Option Int)
    (filter_fn : List CoinState → Int → List CoinState)
    (coin_states : List CoinState) :
    (subscribe_to_phs false (some false) none filter_fn (some coin_states)
        = .error () ∧
      subscribe_to_coin_updates false (some false) none filter_fn (some coin_states)
        = .error ()) ∧
    (∀ fh : Int,
      subscribe_to_phs false (some false) (some fh) filter_fn (some coin_states)
        = .ok (filter_fn coin_states fh) ∧
      subscribe_to_coin_updates false (some false) (some fh) filter_fn (some coin_states)
        = .ok (filter_fn coin_states fh)) ∧
    (trusted = true ∨ syncing = none ∨ syncing = some true →
      subscribe_to_phs trusted syncing fork_height filter_fn (some coin_states)
        = .ok coin_states ∧
      subscribe_to_coin_updates trusted syncing fork_height filter_fn (some coin_states)
        = .ok coin_states) ∧
    (subscribe_to_phs trusted syncing fork_height filter_fn none = .ok [] ∧
      subscribe_to_coin_updates trusted syncing fork_height filter_fn none = .ok []) := by
  refine ⟨⟨rfl, rfl⟩, fun fh => ⟨rfl, rfl⟩, ?_, rfl, rfl⟩
  intro hcase
  have hcond : (!trusted && (syncing == some false)) = false := by
    rcases hcase with h | h | h <;> subst h <;> simp
  refine ⟨?_, ?_⟩
  · simp [subscribe_to_phs, hcond]
  · simp [subscribe_to_coin_updates, hcond]

/-- Witness for C10 at a trusted peer with `syncing = some false`,
`fork_height = none`, the identity-ignoring filter and a one-element
response. -/
theorem C10_subscribe_filtering_witness :
    (subscribe_to_phs false (some false) none (fun l _ => l)
        (some [⟨⟨1, 1⟩, none, none⟩]) = .error () ∧
      subscribe_to_coin_updates false (some false) none (fun l _ => l)
        (some [⟨⟨1, 1⟩, none, none⟩]) = .error ()) ∧
    (subscribe_to_phs true (some false) none (fun l _ => l)
        (some [⟨⟨1, 1⟩, none, none⟩]) = .ok [⟨⟨1, 1⟩, none, none⟩] ∧
      subscribe_to_coin_updates true (some false) none (fun l _ => l)
        (some [⟨⟨1, 1⟩, none, none⟩]) = .ok [⟨⟨1, 1⟩, none, none⟩]) :=
  ⟨(C10_subscribe_filtering true (some false) none (fun l _ => l)
      [⟨⟨1, 1⟩, none, none⟩]).1,
    (C10_subscribe_filtering true (some false) none (fun l _ => l)
      [⟨⟨1, 1⟩, none, none⟩]).2.2.1 (Or.inl rfl)⟩

/-- Helper: the cache-or-network block fetch never touches the
`states_validated` sub-cache. -/
theorem fetch_block_through_cache_states_validated
    (cache : PeerRequestCache) (fetch_header : Nat → Option HeaderBlock)
    (h : Nat) (use_cache check_height : Bool) (b : HeaderBlock)
    (cache' : PeerRequestCache)
    (hfetch : fetch_block_through_cache cache fetch_header h use_cache check_height
      = some (b, cache')) :
    cache'.states_validated = cache.states_validated := by
  unfold fetch_block_through_cache at hfetch
  split at hfetch
  · simp only [Option.some.injEq, Prod.mk.injEq] at hfetch
    obtain ⟨_, rfl⟩ := hfetch
    rfl
  · cases hfh : fetch_header h with
    | none => simp only [hfh] at hfetch; exact absurd hfetch (by simp)
    | some b' =>
      simp only [hfh] at hfetch
      split at hfetch
      · simp at hfetch
      · simp only [Option.some.injEq, Prod.mk.injEq] at hfetch
        obtain ⟨_, rfl⟩ := hfetch
        unfold cache_store_block
        split <;> rfl

/-- C3: whenever `validate_received_state_from_peer` reaches the
additions Merkle-proof check (the cache short-circuit and the
same-as-local short-circuit did not fire, a creation height resolved,
and the creation header was fetched) and `request_and_validate_additions`
returns false, the function closes the peer with code 9999 and returns
false, and the `states_validated` sub-cache is left unchanged (the
insertion on line 1147 is never reached). -/
theorem C3_additions_proof_failure_closes_peer
    (coin_state : CoinState) (cache : PeerRequestCache)
    (current : Option CoinRecord) (fetch_header : Nat → Option HeaderBlock)
    (validate_additions validate_removals : Nat → Nat → Nat → Nat → Bool)
    (block_inclusion : HeaderBlock → Bool)
    (reorg_mode : Bool) (confirmed_height : Nat)
    (state_block : HeaderBlock) (cache1 : PeerRequestCache) (ftb : FoliageTxBlock)
    (h_same : same_as_current coin_state current = false)
    (h_conf : resolve_confirmed_height coin_state current
      = (reorg_mode, some confirmed_height))
    (h_fetch : fetch_block_through_cache cache fetch_header confirmed_height
      (!reorg_mode) false = some (state_block, cache1))
    (h_ftb : state_block.foliage_transaction_block = some ftb)
    (h_add : validate_additions state_block.height state_block.header_hash
      coin_state.coin.puzzle_hash ftb.additions_root = false) :
    validate_received_state_from_peer coin_state cache false current fetch_header
        validate_additions validate_removals block_inclusion
      = .ok (false, cache1, [9999]) ∧
    cache1.states_validated = cache.states_validated := by
  refine ⟨?_, fetch_block_through_cache_states_validated cache fetch_header
    confirmed_height (!reorg_mode) false state_block cache1 h_fetch⟩
  unfold validate_received_state_from_peer
  simp only [h_same, Bool.false_eq_true, if_false, h_conf, h_fetch, h_ftb, h_add]
  simp

/-- Witness for C3: an untrusted peer reports creation of a locally
unknown coin at height 5; the header fetch succeeds and the additions
proof comes back false. -/
theorem C3_additions_proof_failure_witness :
    validate_received_state_from_peer ⟨⟨2, 3⟩, some 5, none⟩ ⟨[], []⟩ false none
        (fun h => some ⟨h, 0, 77, 0, some ⟨88, 99⟩⟩) (fun _ _ _ _ => false)
        (fun _ _ _ _ => true) (fun _ => true)
      = .ok (false, ⟨[(5, ⟨5, 0, 77, 0, some ⟨88, 99⟩⟩)], []⟩, [9999]) ∧
    (⟨[(5, ⟨5, 0, 77, 0, some ⟨88, 99⟩⟩)], []⟩ : PeerRequestCache).states_validated
      = (⟨[], []⟩ : PeerRequestCache).states_validated :=
  C3_additions_proof_failure_closes_peer ⟨⟨2, 3⟩, some 5, none⟩ ⟨[], []⟩ none
    (fun h => some ⟨h, 0, 77, 0, some ⟨88, 99⟩⟩) (fun _ _ _ _ => false)
    (fun _ _ _ _ => true) (fun _ => true) false 5 ⟨5, 0, 77, 0, some ⟨88, 99⟩⟩
    ⟨[(5, ⟨5, 0, 77, 0, some ⟨88, 99⟩⟩)], []⟩ ⟨88, 99⟩ rfl rfl rfl rfl rfl

/-- Witness for C1 (amended): a local peak of weight 6 against an
advertised weight of 5 is ignored at the first check. -/
theorem C1_new_peak_ignored_witness :
    new_peak_weight_gate 5 (some ⟨100, 6, 1, 0, none⟩) (some ⟨100, 6, 1, 0, none⟩)
      = NewPeakOutcome.ignored_early :=
  (C1_new_peak_ignored_iff_strictly_heavier 5 (some ⟨100, 6, 1, 0, none⟩)
    (some ⟨100, 6, 1, 0, none⟩)).1.mpr ⟨⟨100, 6, 1, 0, none⟩, rfl, by decide⟩

/-- Witness for C8 at `finished_sync_up_to = 10` across a long-sync to
15 followed by a synced-peer peak at 12. -/
theorem C8_finished_sync_up_to_monotone_witness :
    10 ≤ sync_run 10 [.longSync 15, .newPeak 12 true] :=
  (C8_finished_sync_up_to_monotone 10 [.longSync 15, .newPeak 12 true]).1
